import Mathlib

/-!
# rekor-server: the mapper (log to map synchronisation) and the lookup/add surface

A shallow embedding of `pkg/in_toto.go`, `pkg/mapper.go`, `app/api.go` and
`app/trillian_client.go`.

Conventions of the embedding.

* A Go `[]byte` and a Go `string` are both sequences of bytes; they are modelled
  by `Bytes`, a list of naturals (each below 256), so that `[]byte(s)` and
  `string(b)` are the identity.
* `int64` values are integers, `uint64` values are naturals; where the source
  computes on them the wrap-around is written out (`wrapInt64`, `% 2 ^ 64`).
* A remote procedure call of the Trillian log or map client is a field of the
  `Clients` structure: it answers either with an error or with a response (the
  generated gRPC stubs return a nil response together with a non-nil error).
  Every call that a function makes is recorded, in order, in a list of `Call`s.
* A function that may stop with a runtime panic returns an `Outcome`.
* The calls to the logger change neither what a function returns nor what it
  calls and are left out; `addLeaf` keeps its log lines, which are the only
  effect of its checks of the status.
* A Go `map` lists its entries in the order in which a `range` loop visits them;
  the theorems hold for every such order.
-/

namespace Rekor

/-- A byte sequence: a Go `[]byte` or a Go `string`. -/
abbrev Bytes := List Nat

/-- The bytes of an ASCII literal. -/
def lit (s : String) : Bytes := s.toList.map Char.toNat

/-! ## Machine integers -/

/-- The two's complement reading of an integer as an `int64`. -/
def wrapInt64 (x : Int) : Int := (x + 2 ^ 63) % 2 ^ 64 - 2 ^ 63

/-- The conversion `int64(u)` of a `uint64`. -/
def int64OfUint64 (u : Nat) : Int := wrapInt64 (u : Int)

/-- The conversion `uint64(i)` of an `int64`. -/
def uint64OfInt64 (i : Int) : Nat := (i % 2 ^ 64).toNat

/-! ## Errors and outcomes -/

/-- The Go `error` values that the embedded code can meet. -/
inductive GoError where
  /-- A gRPC status error of a Trillian call: its code and message. -/
  | rpc (code : Nat) (msg : String)
  /-- The error `hex.InvalidByteError`. -/
  | hexInvalidByte (b : Nat)
  /-- The error `hex.ErrLength`. -/
  | hexLength
  /-- A `strconv.NumError` wrapping `strconv.ErrSyntax`. -/
  | numSyntax (fn : String) (num : Bytes)
  /-- A `strconv.NumError` wrapping `strconv.ErrRange`. -/
  | numRange (fn : String) (num : Bytes)
  /-- Any other error (JSON decoding, signature verification, form parsing). -/
  | other (msg : String)
  deriving DecidableEq, Repr

deriving instance DecidableEq for Except

/-- How a Go function call ends: it returns a value or it panics. -/
inductive Outcome (α : Type) where
  | returned (a : α)
  | panicked (msg : String)
  deriving DecidableEq, Repr

/-! ## `strconv.FormatInt` and `strconv.ParseInt`, base 10, 64 bits -/

/-- The digit loop of `strconv.formatBits` in base 10: the digits of `u` are
written from the least significant one, in front of what the buffer `acc`
already holds. The buffer of the source has room for 65 bytes: `room` counts
the bytes still free. -/
def formatBits : (room : Nat) → (u : Nat) → (acc : Bytes) → Bytes
  | 0, _, acc => acc
  | room + 1, u, acc =>
    if u < 10 then (48 + u) :: acc
    else formatBits room (u / 10) ((48 + u % 10) :: acc)

/-- The function `strconv.FormatInt(i, 10)`: `u := uint64(i)`, negated in
`uint64` when `i < 0`, then the digits and the sign. -/
def FormatInt (i : Int) : Bytes :=
  let u := uint64OfInt64 i
  let u := if i < 0 then (2 ^ 64 - u) % 2 ^ 64 else u
  let a := formatBits 65 u []
  if i < 0 then 45 :: a else a

/-- The loop of `strconv.ParseUint(s, 10, 64)` over the bytes of `s`, from the
accumulator `n`; `s0` is the whole string, for the error. -/
def parseUintLoop (s0 : Bytes) : (s : Bytes) → (n : Nat) → Except GoError Nat
  | [], n => .ok n
  | c :: rest, n =>
    if 48 ≤ c ∧ c ≤ 57 then
      let d := c - 48
      -- cutoff = maxUint64/10 + 1: n*10 would overflow
      if n ≥ (2 ^ 64 - 1) / 10 + 1 then .error (.numRange "ParseUint" s0)
      else
        let n10 := (n * 10) % 2 ^ 64
        let n1 := (n10 + d) % 2 ^ 64
        if n1 < n10 ∨ n1 > 2 ^ 64 - 1 then .error (.numRange "ParseUint" s0)
        else parseUintLoop s0 rest n1
    else .error (.numSyntax "ParseUint" s0)

/-- The function `strconv.ParseUint(s, 10, 64)`. -/
def ParseUint (s : Bytes) : Except GoError Nat :=
  if s = [] then .error (.numSyntax "ParseUint" s) else parseUintLoop s s 0

/-- The function `strconv.ParseInt(s, 10, 64)`: the sign is picked off, the rest
is read by `ParseUint` and checked against the range of `int64`. -/
def ParseInt (s0 : Bytes) : Except GoError Int :=
  match s0 with
  | [] => .error (.numSyntax "ParseInt" s0)
  | c :: rest =>
    let neg := c = 45
    let s := if c = 43 ∨ c = 45 then rest else s0
    match ParseUint s with
    | .error (.numRange _ _) => .error (.numRange "ParseInt" s0)
    | .error _ => .error (.numSyntax "ParseInt" s0)
    | .ok un =>
      if ¬ neg ∧ un ≥ 2 ^ 63 then .error (.numRange "ParseInt" s0)
      else if neg ∧ un > 2 ^ 63 then .error (.numRange "ParseInt" s0)
      else
        let n := int64OfUint64 un
        .ok (if neg then wrapInt64 (-n) else n)

/-! ## `encoding/hex` -/

/-- The function `hex.fromHexChar`: the value of a hexadecimal digit. -/
def fromHexChar (c : Nat) : Option Nat :=
  if 48 ≤ c ∧ c ≤ 57 then some (c - 48)
  else if 97 ≤ c ∧ c ≤ 102 then some (c - 97 + 10)
  else if 65 ≤ c ∧ c ≤ 70 then some (c - 65 + 10)
  else none

/-- The loop of `hex.Decode`: two digits of `src` give one byte of `dst`; an
invalid digit is reported before an odd length. -/
def hexDecodeLoop : (src : Bytes) → (dst : Bytes) → Bytes × Option GoError
  | [], dst => (dst, none)
  | [p], dst =>
    match fromHexChar p with
    | none => (dst, some (.hexInvalidByte p))
    | some _ => (dst, some .hexLength)
  | p :: q :: rest, dst =>
    match fromHexChar p with
    | none => (dst, some (.hexInvalidByte p))
    | some a =>
      match fromHexChar q with
      | none => (dst, some (.hexInvalidByte q))
      | some b => hexDecodeLoop rest (dst ++ [a * 16 + b])

/-- The function `hex.DecodeString`: the bytes decoded so far and the error. -/
def DecodeString (s : Bytes) : Bytes × Option GoError := hexDecodeLoop s []

/-! ## The link of in-toto, as `encoding/json` decodes it -/

/-- A Go `interface{}` holding a decoded JSON value: `nil`, `bool`, `float64`
(by its bits), `string`, `[]interface{}` or `map[string]interface{}`. The
entries of a map are listed in the order in which a `range` loop visits them. -/
inductive Value where
  | null
  | bool (b : Bool)
  | number (bits : Nat)
  | str (s : Bytes)
  | array (xs : List Value)
  | object (entries : List (Bytes × Value))

/-- The struct `in_toto.Link`; each `map[string]interface{}` field lists its
entries in the order in which a `range` loop visits them. -/
structure Link where
  Type_ : Bytes := []
  Name : Bytes := []
  Materials : List (Bytes × Value) := []
  Products : List (Bytes × Value) := []
  ByProducts : List (Bytes × Value) := []
  Command : List Bytes := []
  Environment : List (Bytes × Value) := []

/-! ## `pkg/in_toto.go` -/

/-- The inner loop of `findArtifactHashes`, `for k, v := range product`: an
entry whose key is not `"sha256"` is passed over (`continue`); at the first
entry with that key the value is asserted to be a string (`v.(string)`, which
panics on any other value), decoded, appended when the decoding succeeds, and
the loop ends (`break`). -/
def rangeProduct : (product : List (Bytes × Value)) → (hashes : List Bytes) →
    Outcome (List Bytes)
  | [], hashes => .returned hashes
  | (k, v) :: rest, hashes =>
    if k ≠ lit "sha256" then rangeProduct rest hashes
    else
      match v with
      | .str sha =>
        match DecodeString sha with
        | (_, some _) => .returned hashes
        | (b, none) => .returned (hashes ++ [b])
      | _ => .panicked "interface conversion: the value is not a string"

/-- The outer loop of `findArtifactHashes`, `for _, p := range link.Products`:
a product that is not a `map[string]interface{}` is passed over. -/
def rangeProducts : (products : List (Bytes × Value)) → (hashes : List Bytes) →
    Outcome (List Bytes)
  | [], hashes => .returned hashes
  | (_, p) :: rest, hashes =>
    match p with
    | .object product =>
      match rangeProduct product hashes with
      | .returned hashes1 => rangeProducts rest hashes1
      | .panicked msg => .panicked msg
    | _ => rangeProducts rest hashes

/-- The function `findArtifactHashes`. -/
def findArtifactHashes (link : Link) : Outcome (List Bytes) :=
  rangeProducts link.Products []

/-! ## The Trillian messages and clients -/

/-- The struct `MapperState` of `pkg/mapper.go`: the watermark. -/
structure MapperState where
  LastLeaf : Int
  deriving DecidableEq, Repr

/-- The message `trillian.SignedMapRoot`. -/
structure SignedMapRoot where
  MapRoot : Bytes
  Signature : Bytes
  deriving DecidableEq, Repr

/-- The struct `types.MapRootV1` (`Revision` is a `uint64`). -/
structure MapRootV1 where
  RootHash : Bytes
  TimestampNanos : Nat
  Revision : Nat
  Metadata : Bytes
  deriving DecidableEq, Repr

/-- The message `trillian.LogLeaf` (`LeafIndex` is an `int64`). -/
structure LogLeaf where
  LeafIndex : Int
  LeafValue : Bytes
  deriving DecidableEq, Repr

/-- The message `trillian.MapLeaf`. -/
structure MapLeaf where
  Index : Bytes
  LeafValue : Bytes
  deriving DecidableEq, Repr

/-- The message `trillian.SetMapLeavesRequest` (`Revision` is an `int64`). -/
structure SetMapLeavesRequest where
  MapId : Int
  Leaves : List MapLeaf
  Metadata : Bytes
  Revision : Int
  deriving DecidableEq, Repr

/-- The message `trillian.MapLeafInclusion`; `none` is a nil pointer. -/
structure MapLeafInclusion where
  Leaf : Option MapLeaf
  deriving DecidableEq, Repr

/-- The message `trillian.GetMapLeafResponse`; `none` is a nil pointer. -/
structure GetMapLeafResponse where
  MapLeafInclusion : Option MapLeafInclusion
  deriving DecidableEq, Repr

/-- The message `google.rpc.Status` (`Code` is an `int32`). -/
structure Status where
  Code : Int
  Message : Bytes
  deriving DecidableEq, Repr

/-- The message `trillian.QueuedLogLeaf`; `none` is a nil pointer. -/
structure QueuedLogLeaf where
  Leaf : Option LogLeaf
  Status : Option Status
  deriving DecidableEq, Repr

/-- The message `trillian.QueueLeafResponse`; `none` is a nil pointer. -/
structure QueueLeafResponse where
  QueuedLeaf : Option QueuedLogLeaf
  deriving DecidableEq, Repr

/-- A remote procedure call, with the request it carried. -/
inductive Call where
  | GetSignedMapRoot (mapId : Int)
  | GetSequencedLeafCount (logId : Int)
  | GetLeavesByIndex (logId : Int) (leafIndex : List Int)
  | SetLeaves (req : SetMapLeavesRequest)
  | GetLeaf (mapId : Int) (index : Bytes)
  | QueueLeaf (logId : Int) (leafValue : Bytes)
  deriving DecidableEq, Repr

/-- The struct `Clients` of `pkg/clients.go`, with what its collaborators answer:
the calls of `MapClient` and `LogClient` that the embedded code makes, and
`crypto.VerifySignedMapRoot` at the key `MapPubKey` and SHA-256. -/
structure Clients where
  TLogID : Int
  TMapID : Int
  GetSignedMapRoot : (mapId : Int) → Except GoError SignedMapRoot
  VerifySignedMapRoot : SignedMapRoot → Except GoError MapRootV1
  GetSequencedLeafCount : (logId : Int) → Except GoError Int
  GetLeavesByIndex : (logId : Int) → (leafIndex : List Int) → Except GoError (List LogLeaf)
  SetLeaves : SetMapLeavesRequest → Except GoError Unit
  GetLeaf : (mapId : Int) → (index : Bytes) → Except GoError GetMapLeafResponse
  QueueLeaf : (logId : Int) → (leafValue : Bytes) → Except GoError QueueLeafResponse

/-- The two uses of `json.Unmarshal` in `pkg/mapper.go`. `UnmarshalState data s`
is `json.Unmarshal(data, &state)` when `state` holds `s`: the state afterwards
and the error. `UnmarshalLink data` is `json.Unmarshal(data, &link)` on a fresh
`in_toto.Link`. -/
structure Decoder where
  UnmarshalState : Bytes → MapperState → MapperState × Option GoError
  UnmarshalLink : Bytes → Except GoError Link

/-- The call `json.Marshal(MapperState{...})`: the object with the one member
`"LastLeaf"`, its value written as `strconv.AppendInt(_, v, 10)` writes it. The
literal bytes are an opening brace, the quoted name, a colon; a closing brace. -/
def jsonMarshalState (s : MapperState) : Except GoError Bytes :=
  .ok ([123, 34, 76, 97, 115, 116, 76, 101, 97, 102, 34, 58] ++ FormatInt s.LastLeaf ++ [125])

/-! ## `pkg/mapper.go` -/

/-- The function `getLastMapState`: the revision and the watermark of the latest
signed map root, and the number of sequenced leaves of the log. A metadata that
does not decode is logged and the state is used as `json.Unmarshal` left it. -/
def getLastMapState (j : Decoder) (clients : Clients) :
    Except GoError (Nat × Int × MapperState) × List Call :=
  match clients.GetSignedMapRoot clients.TMapID with
  | .error err => (.error err, [.GetSignedMapRoot clients.TMapID])
  | .ok signedMapRoot =>
    match clients.VerifySignedMapRoot signedMapRoot with
    | .error err => (.error err, [.GetSignedMapRoot clients.TMapID])
    | .ok mrv1 =>
      let state := (j.UnmarshalState mrv1.Metadata { LastLeaf := 0 }).1
      match clients.GetSequencedLeafCount clients.TLogID with
      | .error err =>
        (.error err, [.GetSignedMapRoot clients.TMapID, .GetSequencedLeafCount clients.TLogID])
      | .ok lc =>
        (.ok (mrv1.Revision, lc, state),
          [.GetSignedMapRoot clients.TMapID, .GetSequencedLeafCount clients.TLogID])

/-- The loop `for _, a := range artifacts` of `RunMapper`: one map leaf is
appended for each artifact, its value the decimal form of the leaf index. -/
def rangeArtifacts (leafIndex : Int) : (artifacts : List Bytes) → (leaves : List MapLeaf) →
    List MapLeaf
  | [], leaves => leaves
  | a :: rest, leaves =>
    let val := FormatInt leafIndex
    rangeArtifacts leafIndex rest (leaves ++ [{ Index := a, LeafValue := val }])

/-- The loop `for _, leaf := range resp.Leaves` of `RunMapper`. A leaf that is
not a link is passed over (`continue`); for a link, `SetLeaves` is called with
the map leaves of its artifacts, the new state as metadata and `nextRevision`. -/
def rangeLeaves (j : Decoder) (clients : Clients) :
    (leaves : List LogLeaf) → (nextRevision : Nat) → Outcome (Option GoError) × List Call
  | [], _ => (.returned none, [])
  | leaf :: rest, nextRevision =>
    match j.UnmarshalLink leaf.LeafValue with
    | .error _ => rangeLeaves j clients rest nextRevision
    | .ok link =>
      match findArtifactHashes link with
      | .panicked msg => (.panicked msg, [])
      | .returned artifacts =>
        let leaves := rangeArtifacts leaf.LeafIndex artifacts []
        match jsonMarshalState { LastLeaf := leaf.LeafIndex } with
        | .error err => (.returned (some err), [])
        | .ok stateBytes =>
          let req : SetMapLeavesRequest :=
            { MapId := clients.TMapID, Leaves := leaves, Metadata := stateBytes,
              Revision := int64OfUint64 nextRevision }
          match clients.SetLeaves req with
          | .error err => (.returned (some err), [.SetLeaves req])
          | .ok _ =>
            let r := rangeLeaves j clients rest ((nextRevision + 1) % 2 ^ 64)
            (r.1, .SetLeaves req :: r.2)

/-- The function `RunMapper`: one cycle of the mapper. The result is how the
call ends (the error it returns, `none` for `nil`) and the calls it made. -/
def RunMapper (j : Decoder) (clients : Clients) : Outcome (Option GoError) × List Call :=
  match getLastMapState j clients with
  | (.error err, calls) => (.returned (some err), calls)
  | (.ok (revision, lc, state), calls) =>
    if state.LastLeaf ≥ wrapInt64 (lc - 1) then (.returned none, calls)
    else
      let nextLeafToGet := wrapInt64 (state.LastLeaf + 1)
      match clients.GetLeavesByIndex clients.TLogID [nextLeafToGet] with
      | .error err =>
        (.returned (some err), calls ++ [.GetLeavesByIndex clients.TLogID [nextLeafToGet]])
      | .ok resp =>
        let nextRevision := (revision + 1) % 2 ^ 64
        let r := rangeLeaves j clients resp nextRevision
        (r.1, calls ++ [.GetLeavesByIndex clients.TLogID [nextLeafToGet]] ++ r.2)

/-! ## `app/trillian_client.go` and `app/api.go` -/

/-- An operand of a formatted write. -/
inductive Arg where
  | bytes (b : Bytes)
  | error (err : GoError)
  deriving DecidableEq, Repr

/-- One call `fmt.Fprintf(w, format, args...)`. -/
structure Printed where
  format : String
  args : List Arg
  deriving DecidableEq, Repr

/-- What an `http.ResponseWriter` has been given: the status code of the header
once it is written, and the formatted writes of the body, in order. -/
structure ResponseWriter where
  status : Option Nat
  body : List Printed
  deriving DecidableEq, Repr

/-- The method `WriteHeader`: the first call fixes the status code. -/
def ResponseWriter.WriteHeader (w : ResponseWriter) (code : Nat) : ResponseWriter :=
  match w.status with
  | none => { w with status := some code }
  | some _ => w

/-- A call `fmt.Fprintf(w, format, args...)`: a write before any `WriteHeader`
sends the header with `http.StatusOK`. -/
def Fprintf (w : ResponseWriter) (format : String) (args : List Arg) : ResponseWriter :=
  let w1 := w.WriteHeader 200
  { w1 with body := w1.body ++ [{ format := format, args := args }] }

/-- The constant `http.StatusInternalServerError`. -/
def StatusInternalServerError : Nat := 500

/-- The function `writeError` of `app/api.go`. -/
def writeError (w : ResponseWriter) (err : GoError) : ResponseWriter :=
  let w1 := w.WriteHeader StatusInternalServerError
  Fprintf w1 "Server error: %v\n" [.error err]

/-- The loop `for _, l := range resp.Leaves` of `lookupHandler`. -/
def rangeLookupLeaves : (leaves : List LogLeaf) → ResponseWriter → ResponseWriter
  | [], w => w
  | l :: rest, w => rangeLookupLeaves rest (Fprintf w "----\n%s\n" [.bytes l.LeafValue])

/-- The method `lookupHandler`, for the query parameter `hash`. The error of
`MapClient.GetLeaf` is assigned and never read; the response is dereferenced
field by field (`response.MapLeafInclusion.Leaf.LeafValue`), which panics on a
nil pointer. -/
def lookupHandler (clients : Clients) (w : ResponseWriter) (hash : Bytes) :
    Outcome Unit × ResponseWriter × List Call :=
  match DecodeString hash with
  | (_, some err) => (.returned (), writeError w err, [])
  | (hashBytes, none) =>
    let calls := [Call.GetLeaf clients.TMapID hashBytes]
    match clients.GetLeaf clients.TMapID hashBytes with
    | .error _ => (.panicked "nil pointer dereference", w, calls)
    | .ok response =>
      match response.MapLeafInclusion with
      | none => (.panicked "nil pointer dereference", w, calls)
      | some inclusion =>
        match inclusion.Leaf with
        | none => (.panicked "nil pointer dereference", w, calls)
        | some leaf =>
          match ParseInt leaf.LeafValue with
          | .error err => (.returned (), writeError w err, calls)
          | .ok logIndex =>
            let calls2 := calls ++ [Call.GetLeavesByIndex clients.TLogID [logIndex]]
            match clients.GetLeavesByIndex clients.TLogID [logIndex] with
            | .error err => (.returned (), writeError w err, calls2)
            | .ok resp => (.returned (), rangeLookupLeaves resp w, calls2)

/-- The struct `Response` of `app/trillian_client.go`. -/
structure Response where
  status : Bytes
  leafhash : Bytes
  deriving DecidableEq, Repr

/-- A line given to the logger or printed on the standard output. -/
inductive LogLine where
  | println (err : GoError)
  | error (msg : String)
  | info (msg : String)
  deriving DecidableEq, Repr

/-- The constant `codes.OK`. -/
def codesOK : Nat := 0

/-- The constant `codes.AlreadyExists`. -/
def codesAlreadyExists : Nat := 6

/-- The chain `q.GetStatus().GetCode()` of nil-safe getters, converted to a
`codes.Code` (a `uint32`). -/
def statusCode (q : Option QueuedLogLeaf) : Nat :=
  match q with
  | none => 0
  | some ql =>
    match ql.Status with
    | none => 0
    | some st => (st.Code % 2 ^ 32).toNat

/-- The method `addLeaf`: what it returns (a response and an error, `none` for
`nil`), the lines it logs and the calls it makes. A failed `QueueLeaf` is
printed and the nil response is then dereferenced (`resp.QueuedLeaf`). -/
def addLeaf (clients : Clients) (byteValue : Bytes) (tLogID : Int) :
    Outcome (Response × Option GoError) × List LogLine × List Call :=
  let calls := [Call.QueueLeaf tLogID byteValue]
  match clients.QueueLeaf tLogID byteValue with
  | .error err => (.panicked "nil pointer dereference", [.println err], calls)
  | .ok resp =>
    let c := statusCode resp.QueuedLeaf
    let logs1 : List LogLine :=
      if c ≠ codesOK ∧ c ≠ codesAlreadyExists then [.error "Server Status: Bad status: %v"]
      else []
    let logs2 : List LogLine :=
      if c = codesOK then [.info "Server status: ok"]
      else if c = codesAlreadyExists then [.info "Data already Exists"]
      else []
    (.returned ({ status := lit "OK", leafhash := [] }, none), logs1 ++ logs2, calls)

/-- The file of the form field `fileupload`: its name and what `ioutil.ReadAll`
gives on it. -/
structure Upload where
  Filename : Bytes
  ReadAll : Except GoError Bytes

/-- The method `addHandler`, for what `r.FormFile("fileupload")` gives. -/
def addHandler (clients : Clients) (w : ResponseWriter) (form : Except GoError Upload) :
    Outcome Unit × ResponseWriter × List Call :=
  match form with
  | .error err => (.returned (), writeError w err, [])
  | .ok file =>
    let w1 := Fprintf w "Successfully Uploaded File\n" []
    match file.ReadAll with
    | .error err => (.returned (), writeError w1 err, [])
    | .ok byteLeaf =>
      match addLeaf clients byteLeaf clients.TLogID with
      | (.panicked msg, _, calls) => (.panicked msg, w1, calls)
      | (.returned (_, some err), _, calls) => (.returned (), writeError w1 err, calls)
      | (.returned (resp, none), _, calls) =>
        (.returned (), Fprintf w1 "Server PUT Response: %s" [.bytes resp.status], calls)

/-! ## The digests a link advertises, in the words of the specification -/

/-- Whether a value is a string. -/
def Value.isString : Value → Bool
  | .str _ => true
  | _ => false

/-- Whether the `"sha256"` value of a product, when the product is a key/value
object that has one, is a string. -/
def sha256IsString (p : Value) : Bool :=
  match p with
  | .object entries =>
    match entries.lookup (lit "sha256") with
    | some v => v.isString
    | none => true
  | _ => true

/-- Whether the `"sha256"` values of all the products of a link are strings. -/
def Link.sha256AreStrings (link : Link) : Bool :=
  link.Products.all (fun e => sha256IsString e.2)

/-- The digest that a product advertises under the one honoured algorithm: the
product is a key/value object, it carries a `"sha256"` value, that value is a
validly hex-encoded string; the digest is its hex-decoding. -/
def advertisedSha256 (p : Value) : Option Bytes :=
  match p with
  | .object entries =>
    match entries.lookup (lit "sha256") with
    | some (.str sha) => if (DecodeString sha).2 = none then some (DecodeString sha).1 else none
    | _ => none
  | _ => none

/-- The digests that the products of a link advertise, product by product. -/
def advertisedDigests (link : Link) : List Bytes :=
  link.Products.filterMap (fun e => advertisedSha256 e.2)

/-! ## Concrete collaborators, for the evaluations below -/

/-- A decoder given by two tables: a document of a table decodes to its entry,
any other document is an error that leaves the destination as it was. -/
def tableDecoder (states : List (Bytes × MapperState)) (links : List (Bytes × Link)) :
    Decoder where
  UnmarshalState data s :=
    match states.lookup data with
    | some s1 => (s1, none)
    | none => (s, some (.other "json: cannot decode the document"))
  UnmarshalLink data :=
    match links.lookup data with
    | some link => .ok link
    | none => .error (.other "json: cannot decode the document")

/-- A map server and a log server with fixed contents: the latest map root has
the given metadata and revision and its signature verifies; the log has `count`
sequenced leaves and serves `logLeaves`; the map serves `mapLeaves`, and answers
for an index that was never set with a leaf of empty value; every write is
accepted; a queued leaf is accepted with the status `OK`. -/
def fixedClients (metadata : Bytes) (revision : Nat) (count : Int) (logLeaves : List LogLeaf)
    (mapLeaves : List MapLeaf) : Clients where
  TLogID := 1
  TMapID := 2
  GetSignedMapRoot _ := .ok { MapRoot := lit "map root", Signature := lit "signature" }
  VerifySignedMapRoot _ :=
    .ok { RootHash := [], TimestampNanos := 0, Revision := revision, Metadata := metadata }
  GetSequencedLeafCount _ := .ok count
  GetLeavesByIndex _ leafIndex := .ok (logLeaves.filter (fun l => leafIndex.contains l.LeafIndex))
  SetLeaves _ := .ok ()
  GetLeaf _ index :=
    match mapLeaves.find? (fun l => l.Index = index) with
    | some l => .ok { MapLeafInclusion := some { Leaf := some l } }
    | none => .ok { MapLeafInclusion := some { Leaf := some { Index := index, LeafValue := [] } } }
  QueueLeaf _ leafValue :=
    .ok { QueuedLeaf := some { Leaf := some { LeafIndex := count, LeafValue := leafValue },
                               Status := some { Code := 0, Message := [] } } }

/-- A SHA-256 digest in hexadecimal: that of the empty input. -/
def hexD : Bytes := lit "e3b0c44298fc1c149afbf4c8996fb92427ae41e4649b934ca495991b7852b855"

/-- The 32 bytes of the digest `hexD`. -/
def digestD : Bytes :=
  [227, 176, 196, 66, 152, 252, 28, 20, 154, 251, 244, 200, 153, 111, 185, 36,
   39, 174, 65, 228, 100, 155, 147, 76, 164, 149, 153, 27, 120, 82, 184, 85]

/-- Another SHA-256 digest in hexadecimal: that of the input `abc`. -/
def hexE : Bytes := lit "ba7816bf8f01cfea414140de5dae2223b00361a396177a9cb410ff61f20015ad"

/-- The 32 bytes of the digest `hexE`. -/
def digestE : Bytes :=
  [186, 120, 22, 191, 143, 1, 207, 234, 65, 65, 64, 222, 93, 174, 34, 35,
   176, 3, 97, 163, 150, 23, 122, 156, 180, 16, 255, 97, 242, 0, 21, 173]

/-- A link with one product, which advertises the digest `hexD`. -/
def linkA : Link := { Products := [(lit "a", .object [(lit "sha256", .str hexD)])] }

/-- The payload of `linkA`: the bytes of `\x7b"products":\x7b"a":\x7b"sha256":"D"\x7d\x7d\x7d`,
with the 64 digits of `hexD` for `D`. -/
def payloadA : Bytes :=
  lit "\x7b\"products\":\x7b\"a\":\x7b\"sha256\":\"" ++ hexD ++ lit "\"\x7d\x7d\x7d"

/-- A link with two products that advertise the same digest. -/
def linkTwice : Link :=
  { Products := [(lit "a", .object [(lit "sha256", .str hexD)]),
                 (lit "b", .object [(lit "sha256", .str hexD)])] }

/-- The payload of `linkTwice`: the bytes of
`\x7b"products":\x7b"a":\x7b"sha256":"D"\x7d,"b":\x7b"sha256":"D"\x7d\x7d\x7d`, with the 64 digits
of `hexD` for `D`. -/
def payloadTwice : Bytes :=
  lit "\x7b\"products\":\x7b\"a\":\x7b\"sha256\":\"" ++ hexD ++
    lit "\"\x7d,\"b\":\x7b\"sha256\":\"" ++ hexD ++ lit "\"\x7d\x7d\x7d"

/-- A payload that is not a JSON document. -/
def payloadMalformed : Bytes := lit "not a link"

/-- The decoder of the evaluations: the watermarks 0 and 1 and the payloads of
`linkA` and `linkTwice` decode; in particular the empty metadata of a fresh map
does not. -/
def exampleDecoder : Decoder :=
  tableDecoder [(lit "\x7b\"LastLeaf\":0\x7d", { LastLeaf := 0 }),
                (lit "\x7b\"LastLeaf\":1\x7d", { LastLeaf := 1 })]
    [(payloadA, linkA), (payloadTwice, linkTwice)]

/-- A fresh response writer: no header written, no body. -/
def freshWriter : ResponseWriter := { status := none, body := [] }

/-- Clients whose map root does not verify against the map public key. -/
def unverifiedClients : Clients :=
  { fixedClients (lit "\x7b\"LastLeaf\":0\x7d") 1 2 [⟨1, payloadA⟩] [] with
    VerifySignedMapRoot := fun _ => .error (.other "signature verification failed") }

/-- Clients whose log answers a queued leaf with the leaf, the index `index` and
the status code `code`. -/
def queueClients (index : Int) (code : Int) : Clients :=
  { fixedClients [] 0 0 [] [] with
    QueueLeaf := fun _ leafValue =>
      .ok { QueuedLeaf := some { Leaf := some { LeafIndex := index, LeafValue := leafValue },
                                 Status := some { Code := code, Message := [] } } } }

/-- A link whose one product carries the number 1 as its `"sha256"` value (a
JSON number is decoded to a `float64`, here by its bits). -/
def linkNumber : Link :=
  { Products := [(lit "a", .object [(lit "sha256", .number 4607182418800017408)])] }

/-- The payload of `linkNumber`: the bytes of
`\x7b"products":\x7b"a":\x7b"sha256":1\x7d\x7d\x7d`. -/
def payloadNumber : Bytes := lit "\x7b\"products\":\x7b\"a\":\x7b\"sha256\":1\x7d\x7d\x7d"

/-! ## The decimal form of an index is read back -/

theorem formatBits_head (room u : Nat) (acc : Bytes) :
    ∃ c rest, formatBits (room + 1) u acc = c :: rest ∧ 48 ≤ c ∧ c ≤ 57 := by
  induction room generalizing u acc with
  | zero =>
    by_cases h : u < 10
    · exact ⟨48 + u, acc, by simp [formatBits, h], by omega, by omega⟩
    · exact ⟨48 + u % 10, acc, by simp [formatBits, h], by omega, by omega⟩
  | succ n ih =>
    by_cases h : u < 10
    · exact ⟨48 + u, acc, by simp [formatBits, h], by omega, by omega⟩
    · obtain ⟨c, rest, hc, h1, h2⟩ := ih (u / 10) ((48 + u % 10) :: acc)
      refine ⟨c, rest, ?_, h1, h2⟩
      rw [← hc]
      conv_lhs => unfold formatBits
      simp [h]

theorem parseUintLoop_digit (s0 rest : Bytes) (n d : Nat) (hd : d < 10)
    (hn : n * 10 + d < 2 ^ 64) :
    parseUintLoop s0 ((48 + d) :: rest) n = parseUintLoop s0 rest (n * 10 + d) := by
  have h1 : 48 ≤ 48 + d ∧ 48 + d ≤ 57 := ⟨by omega, by omega⟩
  have h2 : ¬ n ≥ (2 ^ 64 - 1) / 10 + 1 := by norm_num at hn ⊢; omega
  have h3 : (n * 10) % 2 ^ 64 = n * 10 := Nat.mod_eq_of_lt (by omega)
  have h4 : (n * 10 + d) % 2 ^ 64 = n * 10 + d := Nat.mod_eq_of_lt hn
  have h5 : ¬ (n * 10 + d < n * 10 ∨ n * 10 + d > 2 ^ 64 - 1) := by
    norm_num at hn ⊢; omega
  simp only [parseUintLoop, h1, and_self, if_true, h2, if_false, Nat.add_sub_cancel_left, h3, h4, h5]

theorem parseUintLoop_formatBits (s0 : Bytes) (room u : Nat) (acc : Bytes)
    (hroom : u < 10 ^ room) (hu : u < 2 ^ 64) :
    parseUintLoop s0 (formatBits room u acc) 0 = parseUintLoop s0 acc u := by
  induction room generalizing u acc with
  | zero =>
    have : u = 0 := by simpa using hroom
    subst this
    simp [formatBits]
  | succ n ih =>
    by_cases h : u < 10
    · have := parseUintLoop_digit s0 acc 0 u h (by omega)
      simpa [formatBits, h] using this
    · have hdiv : u / 10 < 10 ^ n := by
        rw [Nat.div_lt_iff_lt_mul (by norm_num)]
        simpa [pow_succ] using hroom
      have hstep := parseUintLoop_digit s0 acc (u / 10) (u % 10) (Nat.mod_lt _ (by norm_num))
        (by omega)
      have hrec := ih (u / 10) ((48 + u % 10) :: acc) hdiv (by omega)
      have hu10 : u / 10 * 10 + u % 10 = u := by omega
      rw [hu10] at hstep
      rw [← hstep, ← hrec]
      conv_lhs => unfold formatBits
      simp [h]

theorem ParseUint_formatBits (u : Nat) (hu : u < 2 ^ 64) :
    ParseUint (formatBits 65 u []) = .ok u := by
  obtain ⟨c, rest, hc, -, -⟩ := formatBits_head 64 u []
  have hne : formatBits 65 u [] ≠ [] := by rw [hc]; simp
  unfold ParseUint
  rw [if_neg hne, parseUintLoop_formatBits _ 65 u [] (by norm_num at hu ⊢; omega) hu]
  rfl

theorem ParseInt_minus (rest : Bytes) (u : Nat) (h : ParseUint rest = .ok u)
    (hu : ¬ u > 2 ^ 63) :
    ParseInt (45 :: rest) = .ok (wrapInt64 (-(int64OfUint64 u))) := by
  have hu2 : u ≤ 9223372036854775808 := by norm_num at hu; omega
  simp [ParseInt, h, hu2]

theorem ParseInt_digit (c : Nat) (rest : Bytes) (u : Nat) (h1 : 48 ≤ c) (h2 : c ≤ 57)
    (h : ParseUint (c :: rest) = .ok u) (hu : ¬ u ≥ 2 ^ 63) :
    ParseInt (c :: rest) = .ok (int64OfUint64 u) := by
  have hc43 : ¬ (c = 43 ∨ c = 45) := by omega
  have hc45 : ¬ (c = 45) := by omega
  have hc43a : ¬ (c = 43) := by omega
  have hu2 : ¬ 9223372036854775808 ≤ u := by norm_num at hu; omega
  simp [ParseInt, h, hu2, hc43a, hc45]

theorem ParseInt_FormatInt (i : Int) (hlo : -2 ^ 63 ≤ i) (hhi : i < 2 ^ 63) :
    ParseInt (FormatInt i) = .ok i := by
  by_cases hneg : i < 0
  · have hu : (2 ^ 64 - uint64OfInt64 i) % 2 ^ 64 = (-i).toNat := by
      unfold uint64OfInt64
      norm_num at hlo hhi ⊢
      omega
    have hF : FormatInt i = 45 :: formatBits 65 (-i).toNat [] := by
      simp only [FormatInt, hneg, if_true, hu]
    have hP := ParseUint_formatBits (-i).toNat (by norm_num at hlo hhi ⊢; omega)
    rw [hF, ParseInt_minus _ _ hP (by norm_num at hlo hhi ⊢; omega)]
    refine congrArg Except.ok ?_
    unfold int64OfUint64 wrapInt64
    norm_num at hlo hhi ⊢
    omega
  · have hu : uint64OfInt64 i = i.toNat := by
      unfold uint64OfInt64
      norm_num at hlo hhi ⊢
      omega
    have hF : FormatInt i = formatBits 65 i.toNat [] := by
      simp only [FormatInt, hneg, if_false, hu]
    obtain ⟨c, rest, hc, h1, h2⟩ := formatBits_head 64 i.toNat []
    have hP := ParseUint_formatBits i.toNat (by norm_num at hlo hhi ⊢; omega)
    rw [hF]
    rw [hc] at hP ⊢
    rw [ParseInt_digit c rest _ h1 h2 hP (by norm_num at hlo hhi ⊢; omega)]
    refine congrArg Except.ok ?_
    unfold int64OfUint64 wrapInt64
    norm_num at hlo hhi ⊢
    omega


/-! ## One cycle of the mapper -/

theorem rangeArtifacts_eq (i : Int) (artifacts : List Bytes) (leaves : List MapLeaf) :
    rangeArtifacts i artifacts leaves =
      leaves ++ artifacts.map (fun d => { Index := d, LeafValue := FormatInt i }) := by
  induction artifacts generalizing leaves with
  | nil => simp [rangeArtifacts]
  | cons a rest ih => simp [rangeArtifacts, ih]

theorem wrapInt64_of_range (x : Int) (hlo : -2 ^ 63 ≤ x) (hhi : x < 2 ^ 63) :
    wrapInt64 x = x := by
  unfold wrapInt64
  norm_num at hlo hhi ⊢
  omega

theorem int64OfUint64_of_lt (u : Nat) (hu : u < 2 ^ 63) : int64OfUint64 u = u := by
  unfold int64OfUint64
  exact wrapInt64_of_range _ (by norm_num; omega) (by norm_num at hu ⊢; omega)

/-- What `getLastMapState` returns when its three steps succeed. -/
theorem getLastMapState_ok (j : Decoder) (clients : Clients) (smr : SignedMapRoot)
    (mrv1 : MapRootV1) (N : Int)
    (hroot : clients.GetSignedMapRoot clients.TMapID = .ok smr)
    (hverify : clients.VerifySignedMapRoot smr = .ok mrv1)
    (hcount : clients.GetSequencedLeafCount clients.TLogID = .ok N) :
    getLastMapState j clients =
      (.ok (mrv1.Revision, N, (j.UnmarshalState mrv1.Metadata { LastLeaf := 0 }).1),
        [.GetSignedMapRoot clients.TMapID, .GetSequencedLeafCount clients.TLogID]) := by
  simp [getLastMapState, hroot, hverify, hcount]

/-- C1, as stated, fails. First cycle: the map is at revision `2 ^ 63 - 1` with
watermark 0, the log has two leaves and leaf 1 is the payload of `linkA`; the one
mutation is tagged `-2 ^ 63`, the conversion to `int64` of the `uint64` revision
`2 ^ 63`, and not the revision `r + 1`. Second cycle: the map is at revision 1
with watermark 0 and leaf 1 is the payload of `linkNumber`, which parses as a
link; the cycle panics after its three reads and submits no mutation. -/
theorem RunMapper_advances_fails :
    RunMapper exampleDecoder
        (fixedClients (lit "\x7b\"LastLeaf\":0\x7d") 9223372036854775807 2 [⟨1, payloadA⟩] []) =
      (.returned none,
       [.GetSignedMapRoot 2, .GetSequencedLeafCount 1, .GetLeavesByIndex 1 [1],
        .SetLeaves { MapId := 2,
                     Leaves := [{ Index := digestD, LeafValue := lit "1" }],
                     Metadata := lit "\x7b\"LastLeaf\":1\x7d",
                     Revision := -9223372036854775808 }]) ∧
    (-9223372036854775808 : Int) ≠ ((9223372036854775807 : Nat) : Int) + 1 ∧
    RunMapper
        (tableDecoder [(lit "\x7b\"LastLeaf\":0\x7d", { LastLeaf := 0 })]
          [(payloadNumber, linkNumber)])
        (fixedClients (lit "\x7b\"LastLeaf\":0\x7d") 1 2 [⟨1, payloadNumber⟩] []) =
      (.panicked "interface conversion: the value is not a string",
       [.GetSignedMapRoot 2, .GetSequencedLeafCount 1, .GetLeavesByIndex 1 [1]]) := by
  decide

/-- C1, amended: when the watermark `L` is behind the log (`L < N - 1`), the
revision `r + 1` fits the `int64` field of the request (`r + 1 < 2 ^ 63`), the
log returns the single entry at index `L + 1`, its payload parses as a link and
`findArtifactHashes` returns its digests, one cycle of `RunMapper` submits
exactly one `SetLeaves` mutation, after the three reads. The mutation is tagged
with the revision `r + 1`; it holds one map entry per digest, keyed by the digest
and valued by the decimal form of `L + 1`; its metadata is the JSON object with
the one member `"LastLeaf"`, whose value is the decimal form of `L + 1` (an
opening brace, the quoted name, a colon, the digits, a closing brace), and these
digits are read back as `L + 1`: the watermark it commits is `L + 1`. The cycle
returns what the map answers to that mutation. -/
theorem RunMapper_advances (j : Decoder) (clients : Clients) (smr : SignedMapRoot)
    (mrv1 : MapRootV1) (L N : Int) (leaf : LogLeaf) (link : Link) (hs : List Bytes)
    (hroot : clients.GetSignedMapRoot clients.TMapID = .ok smr)
    (hverify : clients.VerifySignedMapRoot smr = .ok mrv1)
    (hstate : (j.UnmarshalState mrv1.Metadata { LastLeaf := 0 }).1 = { LastLeaf := L })
    (hcount : clients.GetSequencedLeafCount clients.TLogID = .ok N)
    (hL : -2 ^ 63 ≤ L) (hN : N < 2 ^ 63)
    (hrev : mrv1.Revision + 1 < 2 ^ 63)
    (hbehind : L < N - 1)
    (hfetch : clients.GetLeavesByIndex clients.TLogID [L + 1] = .ok [leaf])
    (hindex : leaf.LeafIndex = L + 1)
    (hlink : j.UnmarshalLink leaf.LeafValue = .ok link)
    (hhashes : findArtifactHashes link = .returned hs) :
    ∃ req : SetMapLeavesRequest,
      RunMapper j clients =
        ((match clients.SetLeaves req with
          | .ok _ => Outcome.returned none
          | .error err => Outcome.returned (some err)),
         [.GetSignedMapRoot clients.TMapID, .GetSequencedLeafCount clients.TLogID,
          .GetLeavesByIndex clients.TLogID [L + 1], .SetLeaves req]) ∧
      req.MapId = clients.TMapID ∧
      req.Revision = (mrv1.Revision : Int) + 1 ∧
      req.Leaves = hs.map (fun d => { Index := d, LeafValue := FormatInt (L + 1) }) ∧
      req.Metadata =
        [123, 34, 76, 97, 115, 116, 76, 101, 97, 102, 34, 58] ++ FormatInt (L + 1) ++ [125] ∧
      ParseInt (FormatInt (L + 1)) = .ok (L + 1) := by
  have hw1 : wrapInt64 (N - 1) = N - 1 := wrapInt64_of_range _ (by omega) (by omega)
  have hw2 : wrapInt64 (L + 1) = L + 1 := wrapInt64_of_range _ (by omega) (by omega)
  have hlt : ¬ L ≥ N - 1 := by omega
  have hmod : (mrv1.Revision + 1) % 2 ^ 64 = mrv1.Revision + 1 :=
    Nat.mod_eq_of_lt (by norm_num at hrev ⊢; omega)
  have hcast : int64OfUint64 ((mrv1.Revision + 1) % 2 ^ 64) = (mrv1.Revision : Int) + 1 := by
    rw [hmod, int64OfUint64_of_lt _ hrev]
    push_cast
    rfl
  refine ⟨{ MapId := clients.TMapID,
            Leaves := hs.map (fun d => { Index := d, LeafValue := FormatInt (L + 1) }),
            Metadata := [123, 34, 76, 97, 115, 116, 76, 101, 97, 102, 34, 58] ++
              FormatInt (L + 1) ++ [125],
            Revision := (mrv1.Revision : Int) + 1 }, ?_, rfl, rfl, rfl, rfl,
          ParseInt_FormatInt (L + 1) (by omega) (by omega)⟩
  unfold RunMapper
  rw [getLastMapState_ok j clients smr mrv1 N hroot hverify hcount]
  simp only [hstate, hw1, hw2, hlt, if_false, hfetch]
  simp only [rangeLeaves, hlink, hhashes, hindex, rangeArtifacts_eq, jsonMarshalState,
    List.nil_append, hcast]
  cases clients.SetLeaves _ <;> simp

/-- C1 amended, at a concrete cycle: the map is at revision 1 with watermark 0,
the log has two leaves and leaf 1 is the payload of `linkA`. -/
theorem RunMapper_advances_witness :
    ∃ req : SetMapLeavesRequest,
      RunMapper exampleDecoder
          (fixedClients (lit "\x7b\"LastLeaf\":0\x7d") 1 2 [⟨1, payloadA⟩] []) =
        (.returned none,
         [.GetSignedMapRoot 2, .GetSequencedLeafCount 1, .GetLeavesByIndex 1 [0 + 1],
          .SetLeaves req]) ∧
      req.MapId = 2 ∧
      req.Revision = ((1 : Nat) : Int) + 1 ∧
      req.Leaves = [digestD].map (fun d => { Index := d, LeafValue := FormatInt (0 + 1) }) ∧
      req.Metadata =
        [123, 34, 76, 97, 115, 116, 76, 101, 97, 102, 34, 58] ++ FormatInt (0 + 1) ++ [125] ∧
      ParseInt (FormatInt (0 + 1)) = .ok (0 + 1) :=
  RunMapper_advances exampleDecoder
    (fixedClients (lit "\x7b\"LastLeaf\":0\x7d") 1 2 [⟨1, payloadA⟩] [])
    { MapRoot := lit "map root", Signature := lit "signature" }
    { RootHash := [], TimestampNanos := 0, Revision := 1,
      Metadata := lit "\x7b\"LastLeaf\":0\x7d" }
    0 2 ⟨1, payloadA⟩ linkA [digestD]
    rfl rfl (by decide) rfl (by decide) (by decide) (by decide) (by decide) (by decide) rfl rfl
    (by decide)

/-- What a cycle does when the entry it fetched does not parse as a link: the
loop passes over the entry before any mutation is built, so the cycle ends
without error after the fetch and `SetLeaves` is never called. -/
theorem RunMapper_not_a_link (j : Decoder) (clients : Clients) (smr : SignedMapRoot)
    (mrv1 : MapRootV1) (L N : Int) (leaf : LogLeaf) (err : GoError)
    (hroot : clients.GetSignedMapRoot clients.TMapID = .ok smr)
    (hverify : clients.VerifySignedMapRoot smr = .ok mrv1)
    (hstate : (j.UnmarshalState mrv1.Metadata { LastLeaf := 0 }).1 = { LastLeaf := L })
    (hcount : clients.GetSequencedLeafCount clients.TLogID = .ok N)
    (hL : -2 ^ 63 ≤ L) (hN : N < 2 ^ 63)
    (hbehind : L < N - 1)
    (hfetch : clients.GetLeavesByIndex clients.TLogID [L + 1] = .ok [leaf])
    (hlink : j.UnmarshalLink leaf.LeafValue = .error err) :
    RunMapper j clients =
      (.returned none,
       [.GetSignedMapRoot clients.TMapID, .GetSequencedLeafCount clients.TLogID,
        .GetLeavesByIndex clients.TLogID [L + 1]]) := by
  have hw1 : wrapInt64 (N - 1) = N - 1 := wrapInt64_of_range _ (by omega) (by omega)
  have hw2 : wrapInt64 (L + 1) = L + 1 := wrapInt64_of_range _ (by omega) (by omega)
  have hlt : ¬ L ≥ N - 1 := by omega
  unfold RunMapper
  rw [getLastMapState_ok j clients smr mrv1 N hroot hverify hcount]
  simp only [hstate, hw1, hw2, hlt, if_false, hfetch]
  simp [rangeLeaves, hlink]

/-- C2, the code at a failing input: the map is at revision 1 with watermark 0,
the log has two leaves and leaf 1 is not a JSON document. The cycle returns
without error and has submitted no mutation: the calls it made are the three
reads, so no revision with watermark 1 is committed. -/
theorem RunMapper_malformed_entry_not_committed :
    RunMapper exampleDecoder
        (fixedClients (lit "\x7b\"LastLeaf\":0\x7d") 1 2 [⟨1, payloadMalformed⟩] []) =
      (.returned none,
       [.GetSignedMapRoot 2, .GetSequencedLeafCount 1, .GetLeavesByIndex 1 [1]]) := by
  decide

/-- What a cycle does on a map whose latest revision carries no metadata, when
the log holds a single leaf: the empty metadata does not decode, the state
keeps `LastLeaf = 0`, which is not below `1 - 1`, and the cycle ends after the
two reads. -/
theorem RunMapper_fresh_map_single_leaf (j : Decoder) (clients : Clients)
    (smr : SignedMapRoot) (mrv1 : MapRootV1) (err : Option GoError)
    (hroot : clients.GetSignedMapRoot clients.TMapID = .ok smr)
    (hverify : clients.VerifySignedMapRoot smr = .ok mrv1)
    (hmeta : mrv1.Metadata = [])
    (hdecode : j.UnmarshalState [] { LastLeaf := 0 } = ({ LastLeaf := 0 }, err))
    (hcount : clients.GetSequencedLeafCount clients.TLogID = .ok 1) :
    RunMapper j clients =
      (.returned none,
       [.GetSignedMapRoot clients.TMapID, .GetSequencedLeafCount clients.TLogID]) := by
  unfold RunMapper
  rw [getLastMapState_ok j clients smr mrv1 1 hroot hverify hcount]
  have hw : wrapInt64 0 = 0 := by decide
  simp [hmeta, hdecode, hw]

/-- C3, the code at the failing input: a fresh map (revision 0, empty metadata)
and a log whose only leaf, at index 0, is the payload of `linkA`, which yields
the digest `hexD`. The cycle fetches no leaf and submits no mutation; a lookup
of the digest afterwards is answered by `writeError`. -/
theorem RunMapper_fresh_map_skips_leaf_zero :
    RunMapper exampleDecoder (fixedClients [] 0 1 [⟨0, payloadA⟩] []) =
      (.returned none, [.GetSignedMapRoot 2, .GetSequencedLeafCount 1]) ∧
    findArtifactHashes linkA = .returned [digestD] ∧
    lookupHandler (fixedClients [] 0 1 [⟨0, payloadA⟩] []) freshWriter hexD =
      (.returned (), writeError freshWriter (.numSyntax "ParseInt" []), [.GetLeaf 2 digestD]) := by
  decide

/-! ## The lookup of a digest that was never indexed -/

/-- C4, as stated, fails: the map holds one entry, for the digest `hexD`, and the
digest `hexE` was never indexed; the map answers its key with a leaf of empty
value, the decimal parse of the empty value fails, and `lookupHandler` answers
with the very response that `writeError` emits, whose status is
`http.StatusInternalServerError`. -/
theorem lookupHandler_miss_is_server_error :
    lookupHandler (fixedClients [] 0 6 [] [⟨digestD, FormatInt 5⟩]) freshWriter hexE =
      (.returned (), writeError freshWriter (.numSyntax "ParseInt" []),
        [.GetLeaf 2 digestE]) ∧
    (writeError freshWriter (.numSyntax "ParseInt" [])).status =
      some StatusInternalServerError := by
  decide

/-- C4, amended: for every digest that the map has never indexed, which the map
answers with a leaf of empty value, `lookupHandler` returns (it does not panic),
fetches nothing from the log, and its answer is the internal-server-error
response of `writeError` for the failed parse of the empty value. -/
theorem lookupHandler_never_indexed (clients : Clients) (hash hashBytes index : Bytes)
    (hhash : DecodeString hash = (hashBytes, none))
    (hmiss : clients.GetLeaf clients.TMapID hashBytes =
      .ok { MapLeafInclusion := some { Leaf := some { Index := index, LeafValue := [] } } }) :
    lookupHandler clients freshWriter hash =
      (.returned (), writeError freshWriter (.numSyntax "ParseInt" []),
        [.GetLeaf clients.TMapID hashBytes]) ∧
    (writeError freshWriter (.numSyntax "ParseInt" [])).status =
      some StatusInternalServerError := by
  refine ⟨?_, by decide⟩
  have hparse : ParseInt [] = .error (.numSyntax "ParseInt" []) := by decide
  simp [lookupHandler, hhash, hmiss, hparse]

/-- C4 amended, at a concrete map: one entry, for the digest `hexD`; the digest
`hexE` was never indexed. -/
theorem lookupHandler_never_indexed_witness :
    lookupHandler (fixedClients [] 0 6 [] [⟨digestD, FormatInt 5⟩]) freshWriter hexE =
      (.returned (), writeError freshWriter (.numSyntax "ParseInt" []),
        [.GetLeaf (fixedClients [] 0 6 [] [⟨digestD, FormatInt 5⟩]).TMapID digestE]) ∧
    (writeError freshWriter (.numSyntax "ParseInt" [])).status =
      some StatusInternalServerError :=
  lookupHandler_never_indexed (fixedClients [] 0 6 [] [⟨digestD, FormatInt 5⟩])
    hexE digestE digestE (by decide) (by decide)

/-! ## A cycle that fails before the mutation, and a cycle with nothing to do -/

/-- C5: a cycle in which a step before the mutation fails returns that step's
error and has called `SetLeaves` not at all. The four steps, in order: reading
the signed map root; verifying it (the cycle then ends before the metadata is
decoded: whatever the decoder, the result is the same and neither the log nor
the map is called again); reading the sequenced leaf count; fetching the entry
at `L + 1` when the watermark `L` is behind. -/
theorem RunMapper_aborts_before_mutation (j : Decoder) (clients : Clients) :
    (∀ err, clients.GetSignedMapRoot clients.TMapID = .error err →
      RunMapper j clients =
        (.returned (some err), [.GetSignedMapRoot clients.TMapID])) ∧
    (∀ smr err, clients.GetSignedMapRoot clients.TMapID = .ok smr →
      clients.VerifySignedMapRoot smr = .error err →
      ∀ unmarshalState, RunMapper { j with UnmarshalState := unmarshalState } clients =
        (.returned (some err), [.GetSignedMapRoot clients.TMapID])) ∧
    (∀ smr mrv1 err, clients.GetSignedMapRoot clients.TMapID = .ok smr →
      clients.VerifySignedMapRoot smr = .ok mrv1 →
      clients.GetSequencedLeafCount clients.TLogID = .error err →
      RunMapper j clients =
        (.returned (some err),
          [.GetSignedMapRoot clients.TMapID, .GetSequencedLeafCount clients.TLogID])) ∧
    (∀ smr mrv1 L N err, clients.GetSignedMapRoot clients.TMapID = .ok smr →
      clients.VerifySignedMapRoot smr = .ok mrv1 →
      (j.UnmarshalState mrv1.Metadata { LastLeaf := 0 }).1 = { LastLeaf := L } →
      clients.GetSequencedLeafCount clients.TLogID = .ok N →
      -2 ^ 63 ≤ L → N < 2 ^ 63 → L < N - 1 →
      clients.GetLeavesByIndex clients.TLogID [L + 1] = .error err →
      RunMapper j clients =
        (.returned (some err),
          [.GetSignedMapRoot clients.TMapID, .GetSequencedLeafCount clients.TLogID,
           .GetLeavesByIndex clients.TLogID [L + 1]])) := by
  refine ⟨?_, ?_, ?_, ?_⟩
  · intro err h
    simp [RunMapper, getLastMapState, h]
  · intro smr err h1 h2 f
    simp [RunMapper, getLastMapState, h1, h2]
  · intro smr mrv1 err h1 h2 h3
    simp [RunMapper, getLastMapState, h1, h2, h3]
  · intro smr mrv1 L N err hroot hverify hstate hcount hL hN hbehind hfetch
    have hw1 : wrapInt64 (N - 1) = N - 1 := wrapInt64_of_range _ (by omega) (by omega)
    have hw2 : wrapInt64 (L + 1) = L + 1 := wrapInt64_of_range _ (by omega) (by omega)
    have hlt : ¬ L ≥ N - 1 := by omega
    unfold RunMapper
    rw [getLastMapState_ok j clients smr mrv1 N hroot hverify hcount]
    simp only [hstate, hw1, hw2, hlt, if_false, hfetch]
    simp

/-- C5, at a concrete cycle: the signature of the map root does not verify. -/
theorem RunMapper_aborts_before_mutation_witness :
    RunMapper { exampleDecoder with UnmarshalState := fun _ _ => ({ LastLeaf := 0 }, none) }
        unverifiedClients =
      (.returned (some (.other "signature verification failed")), [.GetSignedMapRoot 2]) :=
  (RunMapper_aborts_before_mutation exampleDecoder unverifiedClients).2.1
    { MapRoot := lit "map root", Signature := lit "signature" }
    (.other "signature verification failed") rfl rfl (fun _ _ => ({ LastLeaf := 0 }, none))

/-- C7: when the watermark `L` is not behind the log of size `N` (`L ≥ N - 1`),
a cycle of `RunMapper` makes the two reads and nothing else (no log entry is
fetched, no mutation is submitted) and returns without error. `N` is any `int64`
but the least one, in particular any size `N ≥ 0`. -/
theorem RunMapper_no_new_leaves (j : Decoder) (clients : Clients) (smr : SignedMapRoot)
    (mrv1 : MapRootV1) (L N : Int)
    (hroot : clients.GetSignedMapRoot clients.TMapID = .ok smr)
    (hverify : clients.VerifySignedMapRoot smr = .ok mrv1)
    (hstate : (j.UnmarshalState mrv1.Metadata { LastLeaf := 0 }).1 = { LastLeaf := L })
    (hcount : clients.GetSequencedLeafCount clients.TLogID = .ok N)
    (hN1 : -2 ^ 63 < N) (hN2 : N < 2 ^ 63)
    (hcaught : L ≥ N - 1) :
    RunMapper j clients =
      (.returned none,
       [.GetSignedMapRoot clients.TMapID, .GetSequencedLeafCount clients.TLogID]) := by
  have hw1 : wrapInt64 (N - 1) = N - 1 := wrapInt64_of_range _ (by omega) (by omega)
  unfold RunMapper
  rw [getLastMapState_ok j clients smr mrv1 N hroot hverify hcount]
  simp only [hstate, hw1, hcaught, if_true]

/-- C7, at a concrete cycle: the watermark is 1 and the log has two leaves. -/
theorem RunMapper_no_new_leaves_witness :
    RunMapper exampleDecoder
        (fixedClients (lit "\x7b\"LastLeaf\":1\x7d") 2 2 [⟨1, payloadA⟩] []) =
      (.returned none, [.GetSignedMapRoot 2, .GetSequencedLeafCount 1]) :=
  RunMapper_no_new_leaves exampleDecoder
    (fixedClients (lit "\x7b\"LastLeaf\":1\x7d") 2 2 [⟨1, payloadA⟩] [])
    { MapRoot := lit "map root", Signature := lit "signature" }
    { RootHash := [], TimestampNanos := 0, Revision := 2,
      Metadata := lit "\x7b\"LastLeaf\":1\x7d" }
    1 2 rfl rfl (by decide) rfl (by decide) (by decide) (by decide)

/-! ## Adding a payload -/

/-- C8, as stated, fails. The log answers the queued payload with the status
code 13 (`codes.Internal`): `addLeaf` logs the bad status and still returns the
status `"OK"` with a nil error, and `addHandler` writes `Server PUT Response: OK`
under the status 200. And when the log accepts the payload, the response is the
same whether the index it assigned is 7 or 8: it carries no index. -/
theorem addLeaf_reports_ok_without_index :
    addLeaf (queueClients 7 13) payloadA 1 =
      (.returned ({ status := lit "OK", leafhash := [] }, none),
        [.error "Server Status: Bad status: %v"], [.QueueLeaf 1 payloadA]) ∧
    addHandler (queueClients 7 13) freshWriter (.ok { Filename := lit "f", ReadAll := .ok payloadA }) =
      (.returned (),
        { status := some 200,
          body := [{ format := "Successfully Uploaded File\n", args := [] },
                   { format := "Server PUT Response: %s", args := [.bytes (lit "OK")] }] },
        [.QueueLeaf 1 payloadA]) ∧
    (addLeaf (queueClients 7 0) payloadA 1).1 =
      .returned ({ status := lit "OK", leafhash := [] }, none) ∧
    (addLeaf (queueClients 8 0) payloadA 1).1 =
      .returned ({ status := lit "OK", leafhash := [] }, none) := by
  decide

/-- C8, amended: for every payload that the log accepts (the queue call succeeds
and reports `OK` or `AlreadyExists`), `addLeaf` makes that one call, logs no
error and returns, with a nil error, the response whose status is `"OK"` and
whose leaf hash is empty; `addHandler` then writes `Server PUT Response: OK`
after its upload line, under the status 200. -/
theorem addLeaf_accepted (clients : Clients) (byteValue : Bytes) (resp : QueueLeafResponse)
    (name : Bytes)
    (hqueue : clients.QueueLeaf clients.TLogID byteValue = .ok resp)
    (hcode : statusCode resp.QueuedLeaf = codesOK ∨
      statusCode resp.QueuedLeaf = codesAlreadyExists) :
    (addLeaf clients byteValue clients.TLogID).1 =
      .returned ({ status := lit "OK", leafhash := [] }, none) ∧
    (∀ msg, LogLine.error msg ∉ (addLeaf clients byteValue clients.TLogID).2.1) ∧
    (addLeaf clients byteValue clients.TLogID).2.2 = [.QueueLeaf clients.TLogID byteValue] ∧
    addHandler clients freshWriter (.ok { Filename := name, ReadAll := .ok byteValue }) =
      (.returned (),
        { status := some 200,
          body := [{ format := "Successfully Uploaded File\n", args := [] },
                   { format := "Server PUT Response: %s", args := [.bytes (lit "OK")] }] },
        [.QueueLeaf clients.TLogID byteValue]) := by
  have h1 : addLeaf clients byteValue clients.TLogID =
      (.returned ({ status := lit "OK", leafhash := [] }, none),
        (if statusCode resp.QueuedLeaf = codesOK then [LogLine.info "Server status: ok"]
          else [LogLine.info "Data already Exists"]),
        [.QueueLeaf clients.TLogID byteValue]) := by
    rcases hcode with h | h
    · simp [addLeaf, hqueue, h]
    · simp [addLeaf, hqueue, h, codesOK, codesAlreadyExists]
  refine ⟨by rw [h1], ?_, by rw [h1], ?_⟩
  · intro msg
    rw [h1]
    by_cases h : statusCode resp.QueuedLeaf = codesOK <;> simp [h]
  · have hw : Fprintf (Fprintf freshWriter "Successfully Uploaded File\n" [])
        "Server PUT Response: %s" [Arg.bytes (lit "OK")] =
        { status := some 200,
          body := [{ format := "Successfully Uploaded File\n", args := [] },
                   { format := "Server PUT Response: %s", args := [.bytes (lit "OK")] }] } := by
      decide
    simp only [addHandler, h1, hw]

/-- C8 amended, at a concrete log that accepts the payload at index 7. -/
theorem addLeaf_accepted_witness :
    (addLeaf (queueClients 7 0) payloadA (queueClients 7 0).TLogID).1 =
      .returned ({ status := lit "OK", leafhash := [] }, none) ∧
    (∀ msg, LogLine.error msg ∉ (addLeaf (queueClients 7 0) payloadA (queueClients 7 0).TLogID).2.1) ∧
    (addLeaf (queueClients 7 0) payloadA (queueClients 7 0).TLogID).2.2 =
      [.QueueLeaf (queueClients 7 0).TLogID payloadA] ∧
    addHandler (queueClients 7 0) freshWriter (.ok { Filename := lit "f", ReadAll := .ok payloadA }) =
      (.returned (),
        { status := some 200,
          body := [{ format := "Successfully Uploaded File\n", args := [] },
                   { format := "Server PUT Response: %s", args := [.bytes (lit "OK")] }] },
        [.QueueLeaf (queueClients 7 0).TLogID payloadA]) :=
  addLeaf_accepted (queueClients 7 0) payloadA
    { QueuedLeaf := some { Leaf := some { LeafIndex := 7, LeafValue := payloadA },
                           Status := some { Code := 0, Message := [] } } }
    (lit "f") rfl (by decide)

/-! ## A written index is read back by the lookup -/

/-- C9: for every 64-bit signed log index `i`, a map leaf that `RunMapper` builds
for `i` has the value `strconv.FormatInt(i, 10)`; `strconv.ParseInt(_, 10, 64)`
reads that value without error as `i`; and `lookupHandler`, when the map answers
the digest with that leaf, asks the log for the entry at index `i`. -/
theorem lookup_reads_back_written_index (i : Int) (hlo : -2 ^ 63 ≤ i) (hhi : i < 2 ^ 63)
    (artifacts : List Bytes) (leaf : MapLeaf) (clients : Clients) (w : ResponseWriter)
    (hash hashBytes : Bytes)
    (hleaf : leaf ∈ rangeArtifacts i artifacts [])
    (hhash : DecodeString hash = (hashBytes, none))
    (hget : clients.GetLeaf clients.TMapID hashBytes =
      .ok { MapLeafInclusion := some { Leaf := some leaf } }) :
    leaf.LeafValue = FormatInt i ∧
    ParseInt leaf.LeafValue = .ok i ∧
    (lookupHandler clients w hash).2.2 =
      [.GetLeaf clients.TMapID hashBytes, .GetLeavesByIndex clients.TLogID [i]] := by
  have hval : leaf.LeafValue = FormatInt i := by
    rw [rangeArtifacts_eq] at hleaf
    simp only [List.nil_append, List.mem_map] at hleaf
    obtain ⟨d, -, hd⟩ := hleaf
    rw [← hd]
  have hparse : ParseInt leaf.LeafValue = .ok i := by
    rw [hval]
    exact ParseInt_FormatInt i hlo hhi
  refine ⟨hval, hparse, ?_⟩
  simp only [lookupHandler, hhash, hget, hparse]
  cases clients.GetLeavesByIndex clients.TLogID [i] <;> simp

/-- C9, at the index 7 and the digest `hexD`. -/
theorem lookup_reads_back_written_index_witness :
    (⟨digestD, FormatInt 7⟩ : MapLeaf).LeafValue = FormatInt 7 ∧
    ParseInt (⟨digestD, FormatInt 7⟩ : MapLeaf).LeafValue = .ok 7 ∧
    (lookupHandler (fixedClients [] 0 8 [⟨7, payloadA⟩] [⟨digestD, FormatInt 7⟩])
        freshWriter hexD).2.2 =
      [.GetLeaf (fixedClients [] 0 8 [⟨7, payloadA⟩] [⟨digestD, FormatInt 7⟩]).TMapID digestD,
       .GetLeavesByIndex (fixedClients [] 0 8 [⟨7, payloadA⟩] [⟨digestD, FormatInt 7⟩]).TLogID
         [7]] :=
  lookup_reads_back_written_index 7 (by decide) (by decide) [digestD]
    ⟨digestD, FormatInt 7⟩
    (fixedClients [] 0 8 [⟨7, payloadA⟩] [⟨digestD, FormatInt 7⟩]) freshWriter
    hexD digestD (by decide) (by decide) (by decide)

/-! ## The digests of a link -/

/-- The inner loop, in closed form: it panics when the `"sha256"` value is not
a string, and otherwise appends the digest that the product advertises. -/
theorem rangeProduct_eq (product : List (Bytes × Value)) (hashes : List Bytes) :
    rangeProduct product hashes =
      if sha256IsString (.object product) then
        .returned (hashes ++ (advertisedSha256 (.object product)).toList)
      else .panicked "interface conversion: the value is not a string" := by
  induction product with
  | nil => simp [rangeProduct, sha256IsString, advertisedSha256]
  | cons e rest ih =>
    obtain ⟨k, v⟩ := e
    by_cases hk : k = lit "sha256"
    · subst hk
      cases v with
      | str sha =>
        rcases hd : DecodeString sha with ⟨b, err⟩
        cases err <;>
          simp [rangeProduct, sha256IsString, advertisedSha256, List.lookup, Value.isString, hd]
      | _ => simp [rangeProduct, sha256IsString, advertisedSha256, List.lookup, Value.isString]
    · have hk2 : (lit "sha256" == k) = false := by
        simpa using fun h => hk h.symm
      have h1 : sha256IsString (.object ((k, v) :: rest)) = sha256IsString (.object rest) := by
        simp [sha256IsString, List.lookup, hk2]
      have h2 : advertisedSha256 (.object ((k, v) :: rest)) = advertisedSha256 (.object rest) := by
        simp [advertisedSha256, List.lookup, hk2]
      rw [h1, h2, ← ih]
      simp [rangeProduct, hk]

/-- The outer loop, in closed form. -/
theorem rangeProducts_eq (products : List (Bytes × Value)) (hashes : List Bytes) :
    rangeProducts products hashes =
      if products.all (fun e => sha256IsString e.2) then
        .returned (hashes ++ products.filterMap (fun e => advertisedSha256 e.2))
      else .panicked "interface conversion: the value is not a string" := by
  induction products generalizing hashes with
  | nil => simp [rangeProducts]
  | cons e rest ih =>
    obtain ⟨name, p⟩ := e
    have hskip : ∀ q : Value, sha256IsString q = true → advertisedSha256 q = none →
        rangeProducts rest hashes =
          if ((name, q) :: rest).all (fun e => sha256IsString e.2) then
            .returned (hashes ++ ((name, q) :: rest).filterMap (fun e => advertisedSha256 e.2))
          else .panicked "interface conversion: the value is not a string" := by
      intro q h1 h2
      simp only [List.all_cons, List.filterMap_cons, h1, h2, Bool.true_and]
      exact ih hashes
    cases p with
    | object product =>
      by_cases hs : sha256IsString (.object product) = true
      · cases ha : advertisedSha256 (.object product) with
        | none =>
          simp only [rangeProducts, rangeProduct_eq, hs, if_true, ha, Option.toList,
            List.append_nil]
          exact hskip _ hs ha
        | some d =>
          simp only [rangeProducts, rangeProduct_eq, hs, if_true, ha, Option.toList, ih,
            List.all_cons, List.filterMap_cons, Bool.true_and, List.append_assoc,
            List.singleton_append]
      · simp only [rangeProducts, rangeProduct_eq, hs, List.all_cons, Bool.false_and]
        simp
    | null => simpa only [rangeProducts] using hskip .null rfl rfl
    | bool b => simpa only [rangeProducts] using hskip (.bool b) rfl rfl
    | number bits => simpa only [rangeProducts] using hskip (.number bits) rfl rfl
    | str s => simpa only [rangeProducts] using hskip (.str s) rfl rfl
    | array xs => simpa only [rangeProducts] using hskip (.array xs) rfl rfl

/-- C6: for every link whose products' `"sha256"` values are strings,
`findArtifactHashes` returns, product by product, exactly the digests that the
products advertise: one for each product that is a key/value object carrying a
validly hex-encoded `"sha256"` value, the hex-decoding of that value, and
nothing for any other product or any other key. -/
theorem findArtifactHashes_eq_advertisedDigests (link : Link)
    (hstrings : link.sha256AreStrings = true) :
    findArtifactHashes link = .returned (advertisedDigests link) := by
  unfold Link.sha256AreStrings at hstrings
  simp [findArtifactHashes, rangeProducts_eq, hstrings, advertisedDigests]

/-- C6, at a link with four products: one advertises an `md5` value and a valid
`sha256`, one is not a key/value object, one has a `sha256` of odd length, one
has a valid `sha256`. -/
theorem findArtifactHashes_eq_advertisedDigests_witness :
    findArtifactHashes
        { Products := [(lit "a", .object [(lit "md5", .str (lit "zz")),
                                          (lit "sha256", .str (lit "00ff"))]),
                       (lit "b", .str (lit "x")),
                       (lit "c", .object [(lit "sha256", .str (lit "0ff"))]),
                       (lit "d", .object [(lit "sha256", .str (lit "0a"))])] } =
      .returned (advertisedDigests
        { Products := [(lit "a", .object [(lit "md5", .str (lit "zz")),
                                          (lit "sha256", .str (lit "00ff"))]),
                       (lit "b", .str (lit "x")),
                       (lit "c", .object [(lit "sha256", .str (lit "0ff"))]),
                       (lit "d", .object [(lit "sha256", .str (lit "0a"))])] }) :=
  findArtifactHashes_eq_advertisedDigests _ (by decide)

/-- The occurrences of a digest among the digests of a list of products: as
many as products advertise it. -/
theorem count_filterMap_advertised (products : List (Bytes × Value)) (d : Bytes) :
    (products.filterMap (fun e => advertisedSha256 e.2)).count d =
      (products.filter (fun e => advertisedSha256 e.2 = some d)).length := by
  induction products with
  | nil => simp
  | cons e rest ih =>
    cases h : advertisedSha256 e.2 with
    | none => simp [List.filterMap_cons, List.filter_cons, h, ih]
    | some b =>
      by_cases hb : b = d
      · simp [List.filterMap_cons, List.filter_cons, h, ih, hb]
      · simp [List.filterMap_cons, List.filter_cons, h, ih, hb, List.count_cons]

/-- C10, as stated, fails: the two products of `linkTwice` advertise the same
`sha256`; `findArtifactHashes` returns the digest `hexD` twice, and the mutation
that `RunMapper` submits for the payload carries two map entries with that key. -/
theorem findArtifactHashes_repeats_digest :
    findArtifactHashes linkTwice = .returned [digestD, digestD] ∧
    ¬ ([digestD, digestD] : List Bytes).Nodup ∧
    RunMapper exampleDecoder
        (fixedClients (lit "\x7b\"LastLeaf\":0\x7d") 1 2 [⟨1, payloadTwice⟩] []) =
      (.returned none,
       [.GetSignedMapRoot 2, .GetSequencedLeafCount 1, .GetLeavesByIndex 1 [1],
        .SetLeaves { MapId := 2,
                     Leaves := [{ Index := digestD, LeafValue := lit "1" },
                                { Index := digestD, LeafValue := lit "1" }],
                     Metadata := lit "\x7b\"LastLeaf\":1\x7d",
                     Revision := 2 }]) := by
  decide

/-- C10, amended: for every link on which `findArtifactHashes` returns, the keys
it extracts are the list of the digests that the products advertise, product by
product: a digest occurs in it as many times as there are products that
advertise it (so no digest is repeated exactly when no two products advertise the
same `sha256`), and the map entries that `RunMapper` builds from it carry these
keys, one entry per element, in the same order. -/
theorem findArtifactHashes_one_key_per_product (link : Link) (hs : List Bytes)
    (hret : findArtifactHashes link = .returned hs) :
    hs = advertisedDigests link ∧
    (∀ d, hs.count d =
      (link.Products.filter (fun e => advertisedSha256 e.2 = some d)).length) ∧
    (∀ i, (rangeArtifacts i hs []).map MapLeaf.Index = hs) := by
  have heq : hs = advertisedDigests link := by
    unfold findArtifactHashes at hret
    rw [rangeProducts_eq] at hret
    by_cases hall : (link.Products.all (fun e => sha256IsString e.2)) = true
    · rw [if_pos hall] at hret
      simpa [advertisedDigests] using hret.symm
    · rw [if_neg hall] at hret
      cases hret
  refine ⟨heq, ?_, ?_⟩
  · intro d
    rw [heq]
    exact count_filterMap_advertised link.Products d
  · intro i
    rw [rangeArtifacts_eq]
    simp [List.map_map, Function.comp_def]

/-- C10 amended, at `linkTwice`. -/
theorem findArtifactHashes_one_key_per_product_witness :
    ([digestD, digestD] : List Bytes) = advertisedDigests linkTwice ∧
    (∀ d, ([digestD, digestD] : List Bytes).count d =
      (linkTwice.Products.filter (fun e => advertisedSha256 e.2 = some d)).length) ∧
    (∀ i, (rangeArtifacts i [digestD, digestD] []).map MapLeaf.Index =
      [digestD, digestD]) :=
  findArtifactHashes_one_key_per_product linkTwice [digestD, digestD] (by decide)

/-! ## The type assertion on the `"sha256"` value -/

/-- When `findArtifactHashes` panics: exactly on the links in which the
`"sha256"` value of some product is not a string. -/
theorem findArtifactHashes_panics_iff (link : Link) :
    findArtifactHashes link = .panicked "interface conversion: the value is not a string" ↔
      link.sha256AreStrings = false := by
  unfold findArtifactHashes Link.sha256AreStrings
  rw [rangeProducts_eq]
  by_cases hall : (link.Products.all (fun e => sha256IsString e.2)) = true
  · simp [hall]
  · simp [hall]

/-- C11, the code at failing inputs. A product that is not a key/value object is
passed over, but a product whose `"sha256"` value is a number, `null`, a list or
a nested object makes `findArtifactHashes` panic at the assertion `v.(string)`,
also after it has collected the digest of an earlier product; and a cycle of
`RunMapper` on the payload of `linkNumber` panics after its three reads, before
any mutation. -/
theorem findArtifactHashes_panics_on_non_string :
    findArtifactHashes { Products := [(lit "a", .str (lit "x")), (lit "b", .null)] } =
      .returned [] ∧
    findArtifactHashes linkNumber =
      .panicked "interface conversion: the value is not a string" ∧
    findArtifactHashes { Products := [(lit "a", .object [(lit "sha256", .null)])] } =
      .panicked "interface conversion: the value is not a string" ∧
    findArtifactHashes { Products := [(lit "a", .object [(lit "sha256", .array [])])] } =
      .panicked "interface conversion: the value is not a string" ∧
    findArtifactHashes { Products := [(lit "a", .object [(lit "sha256", .object [])])] } =
      .panicked "interface conversion: the value is not a string" ∧
    findArtifactHashes
        { Products := [(lit "a", .object [(lit "sha256", .str hexD)]),
                       (lit "b", .object [(lit "sha256", .bool true)])] } =
      .panicked "interface conversion: the value is not a string" ∧
    RunMapper
        (tableDecoder [(lit "\x7b\"LastLeaf\":0\x7d", { LastLeaf := 0 })]
          [(payloadNumber, linkNumber)])
        (fixedClients (lit "\x7b\"LastLeaf\":0\x7d") 1 2 [⟨1, payloadNumber⟩] []) =
      (.panicked "interface conversion: the value is not a string",
       [.GetSignedMapRoot 2, .GetSequencedLeafCount 1, .GetLeavesByIndex 1 [1]]) := by
  decide

end Rekor
